import Mathlib

/-!
Shallow embedding of the two scripts of `libreddit-instances`:
`generate-instances-markdown.py` (the Table Generator) and
`libreddit-instance-picker.py` (the Instance Picker).

JSON-decoded Python values are modelled by `JVal`; dictionaries are
association lists with distinct keys (`PyDict`).  Python operations that can
raise an exception that the script does not catch are modelled with `Option`
(`none` = uncaught exception / crash).  Strings are Lean `String`s of Unicode
code points, matching Python `str`.
-/

/-- A JSON-decoded Python value.  Numbers are modelled as integers (every
claim about the scripts involves only integral numbers). -/
inductive JVal where
  | null
  | bool (b : Bool)
  | num (n : Int)
  | str (s : String)
  | arr (elems : List JVal)
  | obj (fields : List (String × JVal))

/-- A decoded JSON object: association list of key/value pairs (Python dict
keys are distinct; lookup takes the first binding). -/
abbrev PyDict := List (String × JVal)

mutual

/-- Python `repr()` of a decoded JSON value, modelled exactly for the
scalar values (`None`, booleans, integers, strings); for `repr` of strings the
escaping of quotes and non-printable characters is not modelled (no claim
involves it). -/
def pyRepr : JVal → String
  | .null => "None"
  | .bool true => "True"
  | .bool false => "False"
  | .num n => toString n
  | .str s => "'" ++ s ++ "'"
  | .arr l => "[" ++ pyReprJoin l ++ "]"
  | .obj l => "\x7b" ++ pyReprPairsJoin l ++ "\x7d"

def pyReprJoin : List JVal → String
  | [] => ""
  | [v] => pyRepr v
  | v :: rest => pyRepr v ++ ", " ++ pyReprJoin rest

def pyReprPairsJoin : List (String × JVal) → String
  | [] => ""
  | [(k, v)] => "'" ++ k ++ "': " ++ pyRepr v
  | (k, v) :: rest => "'" ++ k ++ "': " ++ pyRepr v ++ ", " ++ pyReprPairsJoin rest

end

/-- Python `str()` of a decoded JSON value (what `"...".format(v)` inserts). -/
def pyStr : JVal → String
  | .str s => s
  | v => pyRepr v

/-- Python truthiness (`bool(v)`) of a decoded JSON value. -/
def truthy : JVal → Bool
  | .null => false
  | .bool b => b
  | .num n => n != 0
  | .str s => s != ""
  | .arr l => !l.isEmpty
  | .obj l => !l.isEmpty

/-- Dictionary lookup (`d[k]` / `k in d` support). -/
def dlookup : PyDict → String → Option JVal
  | [], _ => none
  | (k', v) :: rest, k => if k' = k then some v else dlookup rest k

/-- `startsWithL p l` : the char list `p` is an initial segment of `l`. -/
def startsWithL : List Char → List Char → Bool
  | [], _ => true
  | _ :: _, [] => false
  | a :: as, b :: bs => a == b && startsWithL as bs

/-- `subL p l` : the char list `p` occurs contiguously inside `l`. -/
def subL : List Char → List Char → Bool
  | pat, [] => pat.isEmpty
  | pat, c :: rest => startsWithL pat (c :: rest) || subL pat rest

/-- Python substring test `pat in s` for strings. -/
def substrB (pat s : String) : Bool := subL pat.data s.data

/-- Python `v == k` where `k` is a string: only equal strings compare equal
(a string never equals a number, boolean, `None`, list or dict). -/
def eqStrLit (v : JVal) (k : String) : Bool :=
  match v with
  | .str s => s == k
  | _ => false

/-- Python `k in inst` for a string `k` and a decoded JSON value `inst`:
key test for dicts, substring test for strings, membership for lists;
`TypeError` (modelled as `none`) for `None`, booleans and numbers. -/
def pyContains (inst : JVal) (k : String) : Option Bool :=
  match inst with
  | .obj d => some (dlookup d k).isSome
  | .str s => some (substrB k s)
  | .arr l => some (l.any (fun v => eqStrLit v k))
  | _ => none

/-- Python `inst[k]` for a string key: dict lookup (`KeyError` when absent);
`TypeError` for every non-dict (strings and lists take integer indices). -/
def pyGetItem (inst : JVal) (k : String) : Option JVal :=
  match inst with
  | .obj d => dlookup d k
  | _ => none

/-- The constant `OFFSET` of `flag()` in `generate-instances-markdown.py`. -/
def OFFSET : Nat := 127397

/-- Python `str.upper()` applied to one character, modelled exactly for the
characters whose uppercase form is one character with the ASCII rule (every
country code in the data and in the claims is ASCII). -/
def pyUpperChar (c : Char) : Char :=
  if 97 ≤ c.toNat ∧ c.toNat ≤ 122 then Char.ofNat (c.toNat - 32) else c

/-- `flag()` from `generate-instances-markdown.py`: on the empty string return
the empty string; otherwise shift each uppercased character by `OFFSET` and
return the characters of the first two shifted code points.  `none` models an
exception: `IndexError` when there is only one point, `ValueError` from
`chr` when a shifted point is not below `0x110000`. -/
def flag (code : String) : Option String :=
  if code = "" then some ""
  else
    match code.data.map (fun c => (pyUpperChar c).toNat + OFFSET) with
    | p0 :: p1 :: _ =>
      if p0 < 1114112 && p1 < 1114112 then
        some (String.mk [Char.ofNat p0, Char.ofNat p1])
      else none
    | _ => none

/-- Lines 153–158 of `generate-instances-markdown.py`: the location cell is
`flag(country) + " " + country` and any exception inside the `try` block
falls back to the raw country value.  For a non-string country the block
always raises (`.upper()` on a non-string, or concatenating `str` with a
non-`str` when `flag` returned `""` for a falsy value), so the fallback is
taken and the row formats the value with `str()`. -/
def locationOf : JVal → String
  | .str c =>
    match flag c with
    | some f => f ++ " " ++ c
    | none => c
  | v => pyStr v

/-- One observable action of the Table Generator. -/
inductive Event where
  | writeErr (s : String)
  | openOut (path : String) (mode : String)
  | writeOut (s : String)
  | closeOut
deriving DecidableEq

/-- How a run of the Table Generator ends: `main` returns a code, or an
uncaught exception terminates the process abnormally. -/
inductive Outcome where
  | exited (code : Nat)
  | crashed
deriving DecidableEq

/-- What one instance contributes inside the loop of `main`. -/
inductive RowOutcome where
  | row (r : String)
  | skipNet
  | skipVer (warning : String)
deriving DecidableEq

/-- Lines 123–134 of `generate-instances-markdown.py`: check `url`, then
`onion`, then `i2p`, first present key winning; `some none` is the
`continue` (no network), `none` an uncaught exception. -/
def resolveNetwork (inst : JVal) : Option (Option (String × JVal)) :=
  match pyContains inst "url" with
  | none => none
  | some true =>
    match pyGetItem inst "url" with
    | none => none
    | some v => some (some ("WWW", v))
  | some false =>
    match pyContains inst "onion" with
    | none => none
    | some true =>
      match pyGetItem inst "onion" with
      | none => none
      | some v => some (some ("Tor", v))
    | some false =>
      match pyContains inst "i2p" with
      | none => none
      | some true =>
        match pyGetItem inst "i2p" with
        | none => none
        | some v => some (some ("I2P", v))
      | some false => some none

/-- Line 139: the message written to stderr for an instance without
`version`. -/
def warnMsg (u : JVal) : String := "Skipping '" ++ pyStr u ++ "': no version recorded"

/-- Lines 147–148 and 165: the Behind Cloudflare? cell — the checkmark
exactly when the key is present and its value truthy. -/
def cloudflareFlag (inst : JVal) : Option String :=
  match pyContains inst "cloudflare" with
  | none => none
  | some false => some ""
  | some true =>
    match pyGetItem inst "cloudflare" with
    | none => none
    | some v => some (if truthy v then "✅" else "")

/-- `x = default; if k in inst: x = inst[k]` — optional field with default. -/
def fieldOr (inst : JVal) (k : String) (dflt : JVal) : Option JVal :=
  match pyContains inst k with
  | none => none
  | some false => some dflt
  | some true => pyGetItem inst k

/-- The loop body of `main` (lines 115–167) for one element of the
`instances` array: decide the network, require `version`, default `country`,
`cloudflare` and `description`, and format the row. -/
def processInstance (inst : JVal) : Option RowOutcome :=
  match resolveNetwork inst with
  | none => none
  | some none => some .skipNet
  | some (some (network, urlv)) =>
    match pyContains inst "version" with
    | none => none
    | some false => some (.skipVer (warnMsg urlv))
    | some true =>
      match pyGetItem inst "version" with
      | none => none
      | some verv =>
        match fieldOr inst "country" (.str "(n/a)") with
        | none => none
        | some country =>
          match cloudflareFlag inst with
          | none => none
          | some cf =>
            match fieldOr inst "description" (.str "") with
            | none => none
            | some descv =>
              some (.row ("|" ++ pyStr urlv ++ "|" ++ network ++ "|" ++ pyStr verv ++ "|"
                ++ locationOf country ++ "|" ++ cf ++ "|" ++ pyStr descv ++ "|\n"))

/-- The table row an instance contributes, if any. -/
def rowOf (inst : JVal) : Option String :=
  match processInstance inst with
  | some (.row r) => some r
  | _ => none

/-- The stderr write an instance causes, if any. -/
def warnEventOf (inst : JVal) : Option Event :=
  match processInstance inst with
  | some (.skipVer w) => some (.writeErr w)
  | _ => none

/-- The loop of `main` over the instances: stderr events in order, and the
collected rows (`none` = the loop crashed on an uncaught exception). -/
def loopInstances : List JVal → List Event × Option (List String)
  | [] => ([], some [])
  | inst :: rest =>
    match processInstance inst with
    | none => ([], none)
    | some .skipNet => loopInstances rest
    | some (.skipVer w) =>
      let r := loopInstances rest
      (Event.writeErr w :: r.1, r.2)
    | some (.row s) =>
      let r := loopInstances rest
      (r.1, r.2.map (fun rows => s :: rows))

/-- Python iteration over the value of `instances["instances"]`: lists yield
elements, strings yield one-character strings, dicts yield their keys;
`None`, booleans and numbers raise `TypeError` (`none`). -/
def iterInstances : JVal → Option (List JVal)
  | .arr l => some l
  | .str s => some (s.data.map (fun c => JVal.str (String.mk [c])))
  | .obj l => some (l.map (fun kv => JVal.str kv.1))
  | _ => none

/-- Line 115, `instances["instances"]` and the `for` over it: `KeyError`
when the top-level object lacks the key, `TypeError` when the document is
not a dict or the value is not iterable. -/
def docInstances : JVal → Option (List JVal)
  | .obj fields =>
    match dlookup fields "instances" with
    | none => none
    | some v => iterInstances v
  | _ => none

/-- Line 113 of `generate-instances-markdown.py`. -/
def table_preamble : String :=
  "|URL|Network|Version|Location|Behind Cloudflare?|Comment|\n|-|-|-|-|-|-|\n"

/-- Lines 113–174 after the output stream is chosen: run the loop, then
write the preamble and the rows to the output and close it.  `pre` holds the
events that already happened (the opening of the output file, if any). -/
def runBody (doc : JVal) (pre : List Event) : Outcome × List Event :=
  match docInstances doc with
  | none => (.crashed, pre)
  | some insts =>
    match loopInstances insts with
    | (_, none) =>
      (.crashed, pre ++ (loopInstances insts).1)
    | (evs, some rows) =>
      (.exited 0,
        pre ++ evs ++ Event.writeOut table_preamble :: rows.map Event.writeOut
          ++ [Event.closeOut])

/-- `main` of `generate-instances-markdown.py` as a function of its
environment: the result of opening and JSON-decoding the input file
(`Except.error msg` = the `try` of lines 92–98 raised with message `msg`),
the output path, whether a file already exists there, and whether opening
the output raises (lines 100–111).  Returns the outcome and the ordered
observable events. -/
def mainRun (inputPath : String) (inputRes : Except String JVal)
    (outputPath : String) (outputExists : Bool)
    (outputOpenError : Option String) : Outcome × List Event :=
  match inputRes with
  | .error msg =>
    (.exited 1,
      [Event.writeErr ("Error opening '" ++ inputPath ++ "' for reading:\n"),
       Event.writeErr ("\t" ++ msg ++ "\n")])
  | .ok doc =>
    if outputPath = "-" then
      runBody doc []
    else
      match outputOpenError with
      | some msg =>
        (.exited 1,
          [Event.writeErr ("Error opening '" ++ outputPath ++ "' for writing:\n"),
           Event.writeErr ("\t" ++ msg ++ "\n")])
      | none =>
        runBody doc [Event.openOut outputPath (if outputExists then "w" else "x")]

/-- The bytes written to the chosen output stream during a run. -/
def outContent : List Event → String
  | [] => ""
  | Event.writeOut s :: rest => s ++ outContent rest
  | _ :: rest => outContent rest

/-- Replay the events against the content of the output file (`none` = the
file does not exist): opening with mode `"w"` truncates, with mode `"x"`
creates empty; writes append once the file was opened in this run. -/
def applyEvents (opened : Bool) : List Event → Option String → Option String
  | [], st => st
  | Event.openOut _ _ :: rest, _ => applyEvents true rest (some "")
  | Event.writeOut s :: rest, st =>
    applyEvents opened rest (if opened then st.map (· ++ s) else st)
  | _ :: rest, st => applyEvents opened rest st

/-- The content of the output file after a run whose events are `evs`,
starting from content `st`. -/
def fileAfter (evs : List Event) (st : Option String) : Option String :=
  applyEvents false evs st

/-- A document on which the generator completes without an uncaught
exception: the `instances` access iterates, and no loop iteration crashes. -/
def WellFormed (doc : JVal) : Prop :=
  ∃ insts, docInstances doc = some insts ∧ ∀ i ∈ insts, processInstance i ≠ none

/-- Python `str.isspace` characters (the set `str.strip()` removes). -/
def isPySpace (c : Char) : Bool :=
  c.toNat ∈ [9, 10, 11, 12, 13, 28, 29, 30, 31, 32, 133, 160, 5760,
    8192, 8193, 8194, 8195, 8196, 8197, 8198, 8199, 8200, 8201, 8202,
    8232, 8233, 8239, 8287, 12288]

/-- Python `str.strip()`: remove whitespace from both ends. -/
def pyStrip (s : String) : String :=
  String.mk (((s.data.dropWhile isPySpace).reverse.dropWhile isPySpace).reverse)

/-- Decimal digit value of a character (`int()` digit recognition, modelled
for the ASCII digits, which is what terminal input contains). -/
def digitVal (c : Char) : Option Nat :=
  if 48 ≤ c.toNat ∧ c.toNat ≤ 57 then some (c.toNat - 48) else none

/-- Digits after the first one: a `_` is allowed only between two digits
(Python numeric-literal underscore rule honoured by `int()`). -/
def parseDigitsRest : List Char → Nat → Option Nat
  | [], acc => some acc
  | '_' :: c :: rest, acc =>
    match digitVal c with
    | some d => parseDigitsRest rest (acc * 10 + d)
    | none => none
  | ['_'], _ => none
  | c :: rest, acc =>
    match digitVal c with
    | some d => parseDigitsRest rest (acc * 10 + d)
    | none => none

/-- A nonempty unsigned digit sequence. -/
def parseUDigits : List Char → Option Nat
  | [] => none
  | c :: rest =>
    match digitVal c with
    | some d => parseDigitsRest rest d
    | none => none

/-- Python `int(s)` on an already-stripped string: optional single sign,
then a nonempty digit sequence; `none` models `ValueError`. -/
def pyInt (s : String) : Option Int :=
  match s.data with
  | '+' :: rest => (parseUDigits rest).map Int.ofNat
  | '-' :: rest => (parseUDigits rest).map (fun n => -(n : Int))
  | l => (parseUDigits l).map Int.ofNat

/-- Python list indexing `l[i]`: negative indices count from the end;
`none` models `IndexError`. -/
def pyIndex {α : Type} (l : List α) (i : Int) : Option α :=
  if 0 ≤ i then l.get? i.toNat
  else if i.natAbs ≤ l.length then l.get? (l.length - i.natAbs)
  else none

/-- Lines 31–36 of `libreddit-instance-picker.py`: read a line, strip it,
parse it with `int()` and use it minus one as an index into `keys`; on
`ValueError` or `IndexError` fall back to `keys[0]` and print the notice.
The result pairs the selected key with whether the notice was printed;
`none` models the crash of `keys[0]` on an empty key list. -/
def key_choice (keys : List String) (line : String) : Option (String × Bool) :=
  match pyInt (pyStrip line) with
  | none => (keys.get? 0).map (fun k => (k, true))
  | some n =>
    match pyIndex keys (n - 1) with
    | some k => some (k, false)
    | none => (keys.get? 0).map (fun k => (k, true))

/-- Lexicographic comparison of code-point lists — Python string `<=`. -/
def lexLe : List Char → List Char → Bool
  | [], _ => true
  | _ :: _, [] => false
  | a :: as, b :: bs =>
    if a.toNat < b.toNat then true
    else if b.toNat < a.toNat then false
    else lexLe as bs

/-- Python string comparison `a <= b` (by code points, lexicographic). -/
def strLe (a b : String) : Bool := lexLe a.data b.data

/-- The order used by `sorted()` on strings, as a proposition. -/
def strLeP (a b : String) : Prop := strLe a b = true

/-- Insert into a sorted list (the building block of our model of
`sorted()`). -/
def insertSorted (x : String) : List String → List String
  | [] => [x]
  | y :: ys => if strLe x y then x :: y :: ys else y :: insertSorted x ys

/-- Python `sorted()` on strings, modelled as insertion sort (the result is
characterised by being sorted with the same members). -/
def sortStr : List String → List String
  | [] => []
  | x :: xs => insertSorted x (sortStr xs)

/-- Lines 20–23 of `libreddit-instance-picker.py`: every key of every
instance except `country`, `version` and `description`. -/
def collectKeys (insts : List PyDict) : List String :=
  insts.flatMap (fun d =>
    (d.map Prod.fst).filter (fun k =>
      !(k == "country" || k == "version" || k == "description")))

/-- Line 24: `address_keys = sorted(address_keys)` of the collected set. -/
def address_keys (insts : List PyDict) : List String :=
  sortStr (collectKeys insts).dedup

/-- The `country` values the picker collects (lines 18–19), in order. -/
def countryVals (insts : List PyDict) : List JVal :=
  insts.filterMap (fun d => dlookup d "country")

/-- Require every collected country value to be a string (with mixed types
`sorted()` would raise `TypeError`; the schema makes them strings). -/
def strCountryVals : List JVal → Option (List String)
  | [] => some []
  | .str s :: rest => (strCountryVals rest).map (fun l => s :: l)
  | _ :: _ => none

/-- Line 25: `countries = sorted(countries)` of the collected set. -/
def pickerCountries (insts : List PyDict) : Option (List String) :=
  (strCountryVals (countryVals insts)).map (fun l => sortStr l.dedup)

/-- The events of a run that got past opening the output, for a document
whose instances are `insts` (warnings, then the table, then the close). -/
def bodyEvents (insts : List JVal) : List Event :=
  insts.filterMap warnEventOf
    ++ Event.writeOut table_preamble :: (insts.filterMap rowOf).map Event.writeOut
    ++ [Event.closeOut]

/-- The full text the generator writes to its output for instances
`insts`. -/
def tableContent (insts : List JVal) : String :=
  table_preamble ++ (insts.filterMap rowOf).foldr (fun a b => a ++ b) ""

/-- `true` when no event of the list opens the output file. -/
def noOpen (evs : List Event) : Bool :=
  evs.all fun e =>
    match e with
    | .openOut _ _ => false
    | _ => true

/-- The concrete one-instance document of the spec's example. -/
def doc5 : JVal := .obj [("instances", .arr [.obj
  [("url", .str "https://a.example"), ("version", .str "1.0"),
   ("country", .str "US"), ("cloudflare", .bool true),
   ("description", .str "demo")]])]

/-- A small concrete instance list for the picker. -/
def pickerDemo : List PyDict :=
  [[("url", JVal.str "a"), ("country", JVal.str "US")],
   [("onion", JVal.str "b"), ("country", JVal.str "DE")],
   [("i2p", JVal.str "c")]]

/- ### Helper lemmas -/

theorem loopInstances_spec (insts : List JVal)
    (h : ∀ i ∈ insts, processInstance i ≠ none) :
    loopInstances insts = (insts.filterMap warnEventOf, some (insts.filterMap rowOf)) := by
  induction insts with
  | nil => simp [loopInstances]
  | cons a rest ih =>
    have ha := h a (by simp)
    have hrest : ∀ i ∈ rest, processInstance i ≠ none := fun i hi => h i (by simp [hi])
    obtain ⟨o, ho⟩ : ∃ o, processInstance a = some o := Option.ne_none_iff_exists'.mp ha
    cases o with
    | row r =>
      simp [loopInstances, ho, ih hrest, warnEventOf, rowOf, List.filterMap_cons]
    | skipNet =>
      simp [loopInstances, ho, ih hrest, warnEventOf, rowOf, List.filterMap_cons]
    | skipVer w =>
      simp [loopInstances, ho, ih hrest, warnEventOf, rowOf, List.filterMap_cons]

theorem startsWithL_append (p r : List Char) : startsWithL p (p ++ r) = true := by
  induction p with
  | nil => simp [startsWithL]
  | cons c cs ih => simp [startsWithL, ih]

theorem subL_of_startsWithL {p l : List Char} (h : startsWithL p l = true) :
    subL p l = true := by
  cases l with
  | nil =>
    cases p with
    | nil => simp [subL]
    | cons c cs => simp [startsWithL] at h
  | cons c r => simp [subL, h]

theorem subL_cons {p l : List Char} (c : Char) (h : subL p l = true) :
    subL p (c :: l) = true := by
  simp [subL, h]

theorem subL_append_left {p l : List Char} (xs : List Char) (h : subL p l = true) :
    subL p (xs ++ l) = true := by
  induction xs with
  | nil => simpa using h
  | cons c cs ih => simpa using subL_cons c ih

theorem substrB_mid (a b c : String) : substrB b (a ++ b ++ c) = true := by
  unfold substrB
  rw [String.data_append, String.data_append]
  rw [List.append_assoc]
  exact subL_append_left a.data (subL_of_startsWithL (startsWithL_append b.data c.data))

theorem outContent_append (a b : List Event) :
    outContent (a ++ b) = outContent a ++ outContent b := by
  induction a with
  | nil => simp [outContent]
  | cons e rest ih => cases e <;> simp [outContent, ih, String.append_assoc]

theorem warnEventOf_shape {i : JVal} {e : Event} (hw : warnEventOf i = some e) :
    ∃ s, e = Event.writeErr s := by
  unfold warnEventOf at hw
  rcases hp : processInstance i with _ | o
  · rw [hp] at hw; exact absurd hw (by simp)
  · rw [hp] at hw
    cases o with
    | row r => exact absurd hw (by simp)
    | skipNet => exact absurd hw (by simp)
    | skipVer w => exact ⟨w, (Option.some_inj.mp hw).symm⟩

theorem outContent_writeErrs (insts : List JVal) :
    outContent (insts.filterMap warnEventOf) = "" := by
  induction insts with
  | nil => simp [outContent]
  | cons a rest ih =>
    rw [List.filterMap_cons]
    cases hw : warnEventOf a with
    | none => exact ih
    | some e =>
      obtain ⟨s, rfl⟩ := warnEventOf_shape hw
      simpa [outContent] using ih

theorem outContent_writeOuts (rows : List String) :
    outContent (rows.map Event.writeOut) = rows.foldr (fun a b => a ++ b) "" := by
  induction rows with
  | nil => simp [outContent]
  | cons r rest ih => simp [outContent, ih]

theorem noOpen_bodyEvents (insts : List JVal) : noOpen (bodyEvents insts) = true := by
  simp only [noOpen, List.all_eq_true]
  intro e he
  cases e with
  | openOut p m =>
    exfalso
    simp only [bodyEvents, List.mem_append, List.mem_cons, List.mem_filterMap,
      List.mem_map, List.mem_singleton] at he
    rcases he with (⟨i, _, hw⟩ | h | ⟨s, _, h⟩) | h
    · obtain ⟨s, hs⟩ := warnEventOf_shape hw
      exact Event.noConfusion hs
    · exact Event.noConfusion h
    · exact Event.noConfusion h
    · simp at h
  | writeErr s => rfl
  | writeOut s => rfl
  | closeOut => rfl

theorem applyEvents_opened {evs : List Event} (h : noOpen evs = true) (c : String) :
    applyEvents true evs (some c) = some (c ++ outContent evs) := by
  induction evs generalizing c with
  | nil => simp [applyEvents, outContent]
  | cons e rest ih =>
    have hrest : noOpen rest = true := by
      simp only [noOpen, List.all_cons, Bool.and_eq_true] at h
      exact h.2
    cases e with
    | writeErr s => simpa [applyEvents, outContent] using ih hrest c
    | openOut p m => simp [noOpen, List.all_cons] at h
    | writeOut s =>
      simpa [applyEvents, outContent, String.append_assoc] using ih hrest (c ++ s)
    | closeOut => simpa [applyEvents, outContent] using ih hrest c

theorem applyEvents_unopened {evs : List Event} (h : noOpen evs = true)
    (st : Option String) : applyEvents false evs st = st := by
  induction evs generalizing st with
  | nil => simp [applyEvents]
  | cons e rest ih =>
    have hrest : noOpen rest = true := by
      simp only [noOpen, List.all_cons, Bool.and_eq_true] at h
      exact h.2
    cases e with
    | writeErr s => simpa [applyEvents] using ih hrest st
    | openOut p m => simp [noOpen, List.all_cons] at h
    | writeOut s => simpa [applyEvents] using ih hrest st
    | closeOut => simpa [applyEvents] using ih hrest st

theorem outContent_bodyEvents (insts : List JVal) :
    outContent (bodyEvents insts) = tableContent insts := by
  have h1 : bodyEvents insts
      = insts.filterMap warnEventOf
        ++ (Event.writeOut table_preamble
          :: ((insts.filterMap rowOf).map Event.writeOut ++ [Event.closeOut])) := by
    simp [bodyEvents]
  rw [h1, outContent_append, outContent_writeErrs, String.empty_append]
  have h2 : outContent (Event.writeOut table_preamble
      :: ((insts.filterMap rowOf).map Event.writeOut ++ [Event.closeOut]))
      = table_preamble
        ++ outContent ((insts.filterMap rowOf).map Event.writeOut
          ++ [Event.closeOut]) := rfl
  rw [h2, outContent_append, outContent_writeOuts]
  have h3 : outContent [Event.closeOut] = "" := rfl
  rw [h3, String.append_empty, tableContent]

theorem lexLe_total (a b : List Char) : lexLe a b = true ∨ lexLe b a = true := by
  induction a generalizing b with
  | nil => left; simp [lexLe]
  | cons x xs ih =>
    cases b with
    | nil => right; simp [lexLe]
    | cons y ys =>
      by_cases hxy : x.toNat < y.toNat
      · left; simp [lexLe, hxy]
      · by_cases hyx : y.toNat < x.toNat
        · right; simp [lexLe, hyx]
        · rcases ih ys with h | h
          · left; simp [lexLe, hxy, hyx, h]
          · right; simp [lexLe, hxy, hyx, h]

theorem lexLe_trans {a b c : List Char} (h1 : lexLe a b = true)
    (h2 : lexLe b c = true) : lexLe a c = true := by
  induction a generalizing b c with
  | nil => simp [lexLe]
  | cons x xs ih =>
    cases b with
    | nil => simp [lexLe] at h1
    | cons y ys =>
      cases c with
      | nil => simp [lexLe] at h2
      | cons z zs =>
        simp only [lexLe] at h1 h2 ⊢
        have hxy : x.toNat ≤ y.toNat := by
          by_contra hc
          simp [show ¬(x.toNat < y.toNat) by omega,
            show y.toNat < x.toNat by omega] at h1
        have hyz : y.toNat ≤ z.toNat := by
          by_contra hc
          simp [show ¬(y.toNat < z.toNat) by omega,
            show z.toNat < y.toNat by omega] at h2
        by_cases hxz : x.toNat < z.toNat
        · simp [hxz]
        · have hx_eq_z : x.toNat = z.toNat := by omega
          have hx_eq_y : x.toNat = y.toNat := by omega
          have hy_eq_z : y.toNat = z.toNat := by omega
          simp only [if_neg (by omega : ¬(x.toNat < y.toNat)),
            if_neg (by omega : ¬(y.toNat < x.toNat))] at h1
          simp only [if_neg (by omega : ¬(y.toNat < z.toNat)),
            if_neg (by omega : ¬(z.toNat < y.toNat))] at h2
          rw [if_neg hxz, if_neg (by omega : ¬(z.toNat < x.toNat))]
          exact ih h1 h2

theorem strLeP_total (a b : String) : strLeP a b ∨ strLeP b a :=
  lexLe_total a.data b.data

theorem strLeP_trans {a b c : String} (h1 : strLeP a b) (h2 : strLeP b c) :
    strLeP a c :=
  lexLe_trans h1 h2

theorem mem_insertSorted (l : List String) (a x : String) :
    a ∈ insertSorted x l ↔ a = x ∨ a ∈ l := by
  induction l with
  | nil => simp [insertSorted]
  | cons y ys ih =>
    simp only [insertSorted]
    split
    · simp
    · simp only [List.mem_cons, ih]
      tauto

theorem sorted_insertSorted (l : List String) (x : String)
    (h : List.Sorted strLeP l) : List.Sorted strLeP (insertSorted x l) := by
  induction l with
  | nil => simp [insertSorted]
  | cons y ys ih =>
    rw [List.sorted_cons] at h
    simp only [insertSorted]
    split
    · rename_i hxy
      rw [List.sorted_cons]
      refine ⟨?_, by rw [List.sorted_cons]; exact h⟩
      intro b hb
      rcases List.mem_cons.mp hb with rfl | hb
      · exact hxy
      · exact strLeP_trans hxy (h.1 b hb)
    · rename_i hxy
      have hyx : strLeP y x := by
        rcases strLeP_total x y with hx | hy
        · exact absurd hx hxy
        · exact hy
      rw [List.sorted_cons]
      refine ⟨?_, ih h.2⟩
      intro b hb
      rcases (mem_insertSorted ys b x).mp hb with rfl | hb
      · exact hyx
      · exact h.1 b hb

theorem sorted_sortStr (l : List String) : List.Sorted strLeP (sortStr l) := by
  induction l with
  | nil => simp [sortStr]
  | cons x xs ih => exact sorted_insertSorted _ x ih

theorem mem_sortStr (l : List String) (a : String) : a ∈ sortStr l ↔ a ∈ l := by
  induction l with
  | nil => simp [sortStr]
  | cons x xs ih => simp [sortStr, mem_insertSorted, ih]

theorem get?_eq_getD (l : List String) (i : Nat) (h : i < l.length) :
    l.get? i = some (l.getD i "") := by
  induction l generalizing i with
  | nil => simp at h
  | cons a as ih =>
    cases i with
    | zero => simp [List.get?, List.getD]
    | succ n =>
      have := ih n (by simpa using h)
      simpa [List.get?, List.getD] using this

theorem strCountryVals_mem {vs : List JVal} {l : List String}
    (h : strCountryVals vs = some l) (s : String) :
    s ∈ l ↔ JVal.str s ∈ vs := by
  induction vs generalizing l with
  | nil =>
    simp only [strCountryVals, Option.some_inj] at h
    subst h; simp
  | cons v rest ih =>
    cases v with
    | str t =>
      simp only [strCountryVals] at h
      cases hrest : strCountryVals rest with
      | none => rw [hrest] at h; exact absurd h (by simp)
      | some l' =>
        rw [hrest] at h
        simp at h
        subst h
        simp [ih hrest, List.mem_cons]
    | null => simp [strCountryVals] at h
    | bool b => simp [strCountryVals] at h
    | num n => simp [strCountryVals] at h
    | arr l2 => simp [strCountryVals] at h
    | obj l2 => simp [strCountryVals] at h

theorem runBody_ok {doc : JVal} {insts : List JVal}
    (hdoc : docInstances doc = some insts)
    (hwf : ∀ i ∈ insts, processInstance i ≠ none) (pre : List Event) :
    runBody doc pre = (.exited 0, pre ++ bodyEvents insts) := by
  simp [runBody, hdoc, loopInstances_spec insts hwf, bodyEvents, List.append_assoc]

theorem fileAfter_open_body (p m : String) (insts : List JVal) (st : Option String) :
    fileAfter (Event.openOut p m :: bodyEvents insts) st = some (tableContent insts) := by
  show applyEvents true (bodyEvents insts) (some "") = _
  rw [applyEvents_opened (noOpen_bodyEvents insts) "", String.empty_append,
    outContent_bodyEvents]

/- ### Claim theorems -/

/-- C3: an instance with a resolved network address but no `version` key is
skipped with no row, and exactly one stderr warning per such instance,
containing the resolved address and the phrase "no version recorded"; the
loop produces exactly the warnings and rows of its instances. -/
theorem c3_missing_version_skips :
    (∀ inst net u, resolveNetwork inst = some (some (net, u)) →
       pyContains inst "version" = some false →
       processInstance inst = some (.skipVer (warnMsg u))
       ∧ substrB (pyStr u) (warnMsg u) = true
       ∧ substrB "no version recorded" (warnMsg u) = true
       ∧ rowOf inst = none
       ∧ warnEventOf inst = some (.writeErr (warnMsg u)))
    ∧ (∀ insts : List JVal, (∀ i ∈ insts, processInstance i ≠ none) →
        loopInstances insts
          = (insts.filterMap warnEventOf, some (insts.filterMap rowOf))) := by
  constructor
  · intro inst net u h1 h2
    have hp : processInstance inst = some (.skipVer (warnMsg u)) := by
      simp [processInstance, h1, h2]
    refine ⟨hp, ?_, ?_, by simp [rowOf, hp], by simp [warnEventOf, hp]⟩
    · show substrB (pyStr u) ("Skipping '" ++ pyStr u ++ "': no version recorded") = true
      exact substrB_mid _ _ _
    · have heq : warnMsg u
          = (("Skipping '" ++ pyStr u) ++ "': ") ++ "no version recorded" ++ "" := by
        rw [String.append_empty, String.append_assoc]
        rw [show ("': " ++ "no version recorded" : String)
          = "': no version recorded" from rfl]
        rfl
      rw [heq]
      exact substrB_mid _ _ _
  · exact loopInstances_spec

/-- Witness for C3 at a concrete instance with an onion address and no
version. -/
theorem c3_missing_version_witness :
    processInstance (JVal.obj [("onion", JVal.str "http://t.onion")])
      = some (RowOutcome.skipVer (warnMsg (JVal.str "http://t.onion")))
    ∧ substrB (pyStr (JVal.str "http://t.onion"))
        (warnMsg (JVal.str "http://t.onion")) = true
    ∧ substrB "no version recorded" (warnMsg (JVal.str "http://t.onion")) = true
    ∧ rowOf (JVal.obj [("onion", JVal.str "http://t.onion")]) = none := by
  have h := c3_missing_version_skips.1
    (JVal.obj [("onion", JVal.str "http://t.onion")]) "Tor"
    (JVal.str "http://t.onion") rfl rfl
  exact ⟨h.1, h.2.1, h.2.2.1, h.2.2.2.1⟩

/-- C4: the network label and the address come from `url`, then `onion`,
then `i2p`, the first present key winning; with none of the three keys the
instance is skipped with no row and no warning. -/
theorem c4_network_priority :
    (∀ d : PyDict, ∀ v, dlookup d "url" = some v →
       resolveNetwork (.obj d) = some (some ("WWW", v)))
    ∧ (∀ d : PyDict, ∀ v, dlookup d "url" = none → dlookup d "onion" = some v →
       resolveNetwork (.obj d) = some (some ("Tor", v)))
    ∧ (∀ d : PyDict, ∀ v, dlookup d "url" = none → dlookup d "onion" = none →
       dlookup d "i2p" = some v → resolveNetwork (.obj d) = some (some ("I2P", v)))
    ∧ (∀ d : PyDict, dlookup d "url" = none → dlookup d "onion" = none →
       dlookup d "i2p" = none →
       resolveNetwork (.obj d) = some none
       ∧ processInstance (.obj d) = some .skipNet
       ∧ rowOf (.obj d) = none ∧ warnEventOf (.obj d) = none)
    ∧ (∀ inst rest, processInstance inst = some .skipNet →
       loopInstances (inst :: rest) = loopInstances rest) := by
  refine ⟨?_, ?_, ?_, ?_, ?_⟩
  · intro d v h
    simp [resolveNetwork, pyContains, pyGetItem, h]
  · intro d v h1 h2
    simp [resolveNetwork, pyContains, pyGetItem, h1, h2]
  · intro d v h1 h2 h3
    simp [resolveNetwork, pyContains, pyGetItem, h1, h2, h3]
  · intro d h1 h2 h3
    have hr : resolveNetwork (.obj d) = some none := by
      simp [resolveNetwork, pyContains, pyGetItem, h1, h2, h3]
    have hp : processInstance (.obj d) = some .skipNet := by
      simp [processInstance, hr]
    exact ⟨hr, hp, by simp [rowOf, hp], by simp [warnEventOf, hp]⟩
  · intro inst rest h
    simp [loopInstances, h]

/-- Witness for C4 at concrete instances: onion wins over i2p when `url`
is absent, and a keyless instance is silently skipped. -/
theorem c4_network_priority_witness :
    resolveNetwork (JVal.obj [("onion", JVal.str "b"), ("i2p", JVal.str "c")])
      = some (some ("Tor", JVal.str "b"))
    ∧ processInstance (JVal.obj [("description", JVal.str "d")])
      = some RowOutcome.skipNet := by
  have h1 := c4_network_priority.2.1 [("onion", JVal.str "b"), ("i2p", JVal.str "c")]
    (JVal.str "b") rfl rfl
  have h2 := (c4_network_priority.2.2.2.1 [("description", JVal.str "d")]
    rfl rfl rfl).2.1
  exact ⟨h1, h2⟩

/-- C10: the Behind Cloudflare? cell carries the checkmark exactly when the
`cloudflare` key is present with a truthy value — truthiness holds for every
JSON value except `null`, `false`, `0`, `""`, `[]` and `{}` — and the
computed cell is what the row renders. -/
theorem c10_cloudflare_truthy :
    (∀ d : PyDict, ∀ v, dlookup d "cloudflare" = some v →
       cloudflareFlag (.obj d) = some (if truthy v then "✅" else ""))
    ∧ (∀ d : PyDict, dlookup d "cloudflare" = none → cloudflareFlag (.obj d) = some "")
    ∧ (∀ v, truthy v = true ↔
        v ≠ .null ∧ v ≠ .bool false ∧ v ≠ .num 0 ∧ v ≠ .str ""
          ∧ v ≠ .arr [] ∧ v ≠ .obj [])
    ∧ (∀ d : PyDict, ∀ u verv country cf descv,
        resolveNetwork (.obj d) = some (some ("WWW", u)) →
        pyContains (.obj d) "version" = some true →
        pyGetItem (.obj d) "version" = some verv →
        fieldOr (.obj d) "country" (.str "(n/a)") = some country →
        cloudflareFlag (.obj d) = some cf →
        fieldOr (.obj d) "description" (.str "") = some descv →
        processInstance (.obj d)
          = some (.row ("|" ++ pyStr u ++ "|" ++ "WWW" ++ "|" ++ pyStr verv ++ "|"
              ++ locationOf country ++ "|" ++ cf ++ "|" ++ pyStr descv ++ "|\n"))) := by
  refine ⟨?_, ?_, ?_, ?_⟩
  · intro d v h
    simp [cloudflareFlag, pyContains, pyGetItem, h]
  · intro d h
    simp [cloudflareFlag, pyContains, pyGetItem, h]
  · intro v
    cases v with
    | null => simp [truthy]
    | bool b => cases b <;> simp [truthy]
    | num n => simp [truthy]
    | str s => simp [truthy]
    | arr l => cases l <;> simp [truthy]
    | obj l => cases l <;> simp [truthy]
  · intro d u verv country cf descv h1 h2 h3 h4 h5 h6
    simp [processInstance, h1, h2, h3, h4, h5, h6]

/-- Witness for C10: truthy non-boolean values render the checkmark,
falsy or absent values render the empty cell. -/
theorem c10_cloudflare_truthy_witness :
    cloudflareFlag (JVal.obj [("cloudflare", JVal.str "yes")]) = some "✅"
    ∧ cloudflareFlag (JVal.obj [("cloudflare", JVal.num 2)]) = some "✅"
    ∧ cloudflareFlag (JVal.obj [("cloudflare", JVal.bool false)]) = some ""
    ∧ cloudflareFlag (JVal.obj [("cloudflare", JVal.num 0)]) = some ""
    ∧ cloudflareFlag (JVal.obj [("x", JVal.null)]) = some "" := by
  refine ⟨?_, ?_, ?_, ?_, ?_⟩
  · exact (c10_cloudflare_truthy.1 [("cloudflare", JVal.str "yes")]
      (JVal.str "yes") rfl).trans (by decide)
  · exact (c10_cloudflare_truthy.1 [("cloudflare", JVal.num 2)]
      (JVal.num 2) rfl).trans (by decide)
  · exact (c10_cloudflare_truthy.1 [("cloudflare", JVal.bool false)]
      (JVal.bool false) rfl).trans (by decide)
  · exact (c10_cloudflare_truthy.1 [("cloudflare", JVal.num 0)]
      (JVal.num 0) rfl).trans (by decide)
  · exact c10_cloudflare_truthy.2.1 [("x", JVal.null)] rfl

/-- C1 counterexample: the claim says a country string that is not a clean
two-letter code falls back to the raw string with no flag decoration, but
for the default string "(n/a)" the `flag` call succeeds on the first two
characters and the location cell is decorated, as is "USA"; the full row of
an instance without `country` shows the decorated cell. -/
theorem c1_location_counterexample :
    locationOf (JVal.str "(n/a)") ≠ "(n/a)"
    ∧ flag "(n/a)" = some (String.mk [Char.ofNat 127437, Char.ofNat 127475])
    ∧ locationOf (JVal.str "(n/a)")
        = String.mk [Char.ofNat 127437, Char.ofNat 127475] ++ " (n/a)"
    ∧ locationOf (JVal.str "USA") ≠ "USA"
    ∧ rowOf (JVal.obj [("url", JVal.str "x"), ("version", JVal.str "1")])
        = some ("|x|WWW|1|" ++ String.mk [Char.ofNat 127437, Char.ofNat 127475]
            ++ " (n/a)|||\n") := by
  refine ⟨by decide, by decide, by decide, by decide, by decide⟩

/-- C1 (amended): `flag "US"` is the two regional-indicator symbols for U
and S and `flag ""` is empty, but the location cell falls back to the raw
country string exactly when `flag` raises — a one-character string, or a
character shifted past the Unicode range; every string of two or more
characters whose first two shifted code points are in range gets the two
symbols prepended with a space, whether or not it is a clean two-letter
code. -/
theorem c1_flag_location_amended :
    flag "US" = some "🇺🇸"
    ∧ flag "" = some ""
    ∧ (∀ s : String, s.data.length = 1 → flag s = none ∧ locationOf (.str s) = s)
    ∧ (∀ s : String, ∀ a b rest, s.data = a :: b :: rest →
        (pyUpperChar a).toNat + OFFSET < 1114112 →
        (pyUpperChar b).toNat + OFFSET < 1114112 →
        flag s = some (String.mk [Char.ofNat ((pyUpperChar a).toNat + OFFSET),
            Char.ofNat ((pyUpperChar b).toNat + OFFSET)])
        ∧ locationOf (.str s)
          = String.mk [Char.ofNat ((pyUpperChar a).toNat + OFFSET),
              Char.ofNat ((pyUpperChar b).toNat + OFFSET)] ++ " " ++ s) := by
  refine ⟨by decide, by decide, ?_, ?_⟩
  · intro s hs
    have hne : ¬(s = "") := by
      intro heq
      rw [heq] at hs
      simp at hs
    rcases hd : s.data with _ | ⟨c, rest⟩
    · rw [hd] at hs; simp at hs
    · have hrest : rest = [] := by
        rw [hd] at hs
        simpa using hs
      subst hrest
      have hf : flag s = none := by
        rw [flag, if_neg hne, hd]
        simp
      exact ⟨hf, by rw [locationOf, hf]⟩
  · intro s a b rest hd hb1 hb2
    have hne : ¬(s = "") := by
      intro heq
      rw [heq] at hd
      exact List.noConfusion hd
    have hf : flag s = some (String.mk [Char.ofNat ((pyUpperChar a).toNat + OFFSET),
        Char.ofNat ((pyUpperChar b).toNat + OFFSET)]) := by
      rw [flag, if_neg hne, hd]
      simp [hb1, hb2]
    exact ⟨hf, by rw [locationOf, hf]⟩

/-- Witness for C1: `flag` fails only on the one-character string "F"
(fallback taken), while the three-letter "USA" is decorated with the U/S
symbols. -/
theorem c1_flag_location_witness :
    flag "F" = none ∧ locationOf (JVal.str "F") = "F"
    ∧ flag "USA" = some "🇺🇸" ∧ locationOf (JVal.str "USA") = "🇺🇸 USA" := by
  refine ⟨(c1_flag_location_amended.2.2.1 "F" (by decide)).1,
    (c1_flag_location_amended.2.2.1 "F" (by decide)).2, ?_, ?_⟩
  · have h := (c1_flag_location_amended.2.2.2 "USA" 'U' 'S' ['A']
      (by decide) (by decide) (by decide)).1
    rw [h]; decide
  · have h := (c1_flag_location_amended.2.2.2 "USA" 'U' 'S' ['A']
      (by decide) (by decide) (by decide)).2
    rw [h]; decide

/-- C5: on the spec's one-instance document the generator exits 0 and
writes exactly the fixed preamble followed by the single expected row, and
the content written with output target `-` is identical to the content
written in the file case. -/
theorem c5_concrete_output :
    (mainRun "instances.json" (.ok doc5) "-" false none).1 = Outcome.exited 0
    ∧ outContent (mainRun "instances.json" (.ok doc5) "-" false none).2
      = "|URL|Network|Version|Location|Behind Cloudflare?|Comment|\n|-|-|-|-|-|-|\n|https://a.example|WWW|1.0|🇺🇸 US|✅|demo|\n"
    ∧ outContent (mainRun "instances.json" (.ok doc5) "instances.md" false none).2
      = outContent (mainRun "instances.json" (.ok doc5) "-" false none).2
    ∧ fileAfter (mainRun "instances.json" (.ok doc5) "instances.md" false none).2 none
      = some (outContent (mainRun "instances.json" (.ok doc5) "-" false none).2)
    ∧ (mainRun "instances.json" (.ok doc5) "instances.md" false none).1
      = Outcome.exited 0 := by
  refine ⟨by decide, by decide, by decide, by decide, by decide⟩

/-- C6: the generator returns exit code 1 exactly when the input open/parse
fails or the output open fails; an input failure writes the two diagnostic
lines (offending path, then message) and leaves any output file untouched;
an output-open failure writes its two diagnostic lines; otherwise, on a
well-formed document, it returns exit code 0. -/
theorem c6_exit_codes (inPath : String) (inputRes : Except String JVal)
    (outPath : String) (outputExists : Bool) (openErr : Option String)
    (hw : ∀ doc, inputRes = Except.ok doc → WellFormed doc) :
    ((mainRun inPath inputRes outPath outputExists openErr).1 = Outcome.exited 1 ↔
      ((∃ m, inputRes = Except.error m)
        ∨ ((∃ doc, inputRes = Except.ok doc) ∧ outPath ≠ "-" ∧ openErr ≠ none)))
    ∧ (∀ m, inputRes = Except.error m →
        (mainRun inPath inputRes outPath outputExists openErr).2
          = [Event.writeErr ("Error opening '" ++ inPath ++ "' for reading:\n"),
             Event.writeErr ("\t" ++ m ++ "\n")]
        ∧ ∀ st, fileAfter (mainRun inPath inputRes outPath outputExists openErr).2 st
            = st)
    ∧ (∀ doc m, inputRes = Except.ok doc → outPath ≠ "-" → openErr = some m →
        (mainRun inPath inputRes outPath outputExists openErr).2
          = [Event.writeErr ("Error opening '" ++ outPath ++ "' for writing:\n"),
             Event.writeErr ("\t" ++ m ++ "\n")])
    ∧ (∀ doc, inputRes = Except.ok doc → (outPath = "-" ∨ openErr = none) →
        (mainRun inPath inputRes outPath outputExists openErr).1
          = Outcome.exited 0) := by
  rcases inputRes with m | doc
  · refine ⟨?_, ?_, ?_, ?_⟩
    · simp [mainRun]
    · intro m' hm'
      have : m' = m := by
        cases hm'
        rfl
      subst this
      refine ⟨by simp [mainRun], ?_⟩
      intro st
      simp [mainRun, fileAfter, applyEvents]
    · intro doc m' h
      exact absurd h (by simp)
    · intro doc h
      exact absurd h (by simp)
  · obtain ⟨insts, hdoc, hwf⟩ := hw doc rfl
    by_cases hdash : outPath = "-"
    · subst hdash
      have hm : mainRun inPath (Except.ok doc) "-" outputExists openErr
          = (.exited 0, bodyEvents insts) := by
        simpa [mainRun] using runBody_ok hdoc hwf []
      refine ⟨?_, ?_, ?_, ?_⟩
      · rw [hm]
        simp
      · intro m' h
        exact absurd h (by simp)
      · intro doc' m' _ hne _
        exact absurd rfl hne
      · intro doc' _ _
        rw [hm]
    · rcases openErr with _ | m
      · have hm : mainRun inPath (Except.ok doc) outPath outputExists none
            = (.exited 0, Event.openOut outPath (if outputExists then "w" else "x")
                :: bodyEvents insts) := by
          simpa [mainRun, hdash] using
            runBody_ok hdoc hwf [Event.openOut outPath (if outputExists then "w" else "x")]
        refine ⟨?_, ?_, ?_, ?_⟩
        · rw [hm]
          simp
        · intro m' h
          exact absurd h (by simp)
        · intro doc' m' _ _ h
          exact absurd h (by simp)
        · intro doc' _ _
          rw [hm]
      · have hm : mainRun inPath (Except.ok doc) outPath outputExists (some m)
            = (.exited 1,
              [Event.writeErr ("Error opening '" ++ outPath ++ "' for writing:\n"),
               Event.writeErr ("\t" ++ m ++ "\n")]) := by
          simp [mainRun, hdash]
        refine ⟨?_, ?_, ?_, ?_⟩
        · rw [hm]
          simp [hdash]
        · intro m' h
          exact absurd h (by simp)
        · intro doc' m' _ _ h
          have : m' = m := by
            cases h
            rfl
          subst this
          rw [hm]
        · intro doc' _ h
          rcases h with h | h
          · exact absurd h hdash
          · exact absurd h (by simp)

/-- Witness for C6: a concrete failing input open returns 1, writes the two
diagnostic lines, and does not touch an existing output file. -/
theorem c6_exit_codes_witness :
    (mainRun "instances.json" (Except.error "boom") "instances.md" false none).1
      = Outcome.exited 1
    ∧ (mainRun "instances.json" (Except.error "boom") "instances.md" false none).2
      = [Event.writeErr ("Error opening '" ++ "instances.json" ++ "' for reading:\n"),
         Event.writeErr ("\t" ++ "boom" ++ "\n")]
    ∧ fileAfter (mainRun "instances.json" (Except.error "boom") "instances.md"
        false none).2 (some "keep") = some "keep" := by
  have h := c6_exit_codes "instances.json" (Except.error "boom") "instances.md"
    false none (fun doc hd => Except.noConfusion hd)
  exact ⟨h.1.mpr (Or.inl ⟨"boom", rfl⟩), (h.2.1 "boom" rfl).1,
    (h.2.1 "boom" rfl).2 (some "keep")⟩

/-- C9: on a document whose top level has no usable `instances` (missing
key, non-dict document, or non-iterable value), the generator crashes only
after the output file was already opened for writing, so a pre-existing file
is truncated to empty, and the process neither returns the clean error code
1 nor the success code 0. -/
theorem c9_crash_after_open (doc : JVal) (inPath outPath : String) (c0 : String)
    (hdoc : docInstances doc = none) (hp : outPath ≠ "-") :
    mainRun inPath (.ok doc) outPath true none
      = (Outcome.crashed, [Event.openOut outPath "w"])
    ∧ fileAfter (mainRun inPath (.ok doc) outPath true none).2 (some c0) = some ""
    ∧ (mainRun inPath (.ok doc) outPath true none).1 ≠ Outcome.exited 1
    ∧ (mainRun inPath (.ok doc) outPath true none).1 ≠ Outcome.exited 0 := by
  have hm : mainRun inPath (.ok doc) outPath true none
      = (Outcome.crashed, [Event.openOut outPath "w"]) := by
    simp [mainRun, hp, runBody, hdoc]
  refine ⟨hm, ?_, ?_, ?_⟩
  · rw [hm]
    simp [fileAfter, applyEvents]
  · rw [hm]
    simp
  · rw [hm]
    simp

/-- Witness for C9 at the concrete document `{}` with an existing output
file. -/
theorem c9_crash_after_open_witness :
    mainRun "instances.json" (Except.ok (JVal.obj [])) "instances.md" true none
      = (Outcome.crashed, [Event.openOut "instances.md" "w"])
    ∧ fileAfter (mainRun "instances.json" (Except.ok (JVal.obj []))
        "instances.md" true none).2 (some "old table") = some "" := by
  have h := c9_crash_after_open (JVal.obj []) "instances.json" "instances.md"
    "old table" rfl (by decide)
  exact ⟨h.1, h.2.1⟩

/-- C8: with identical input, running the generator a second time against
the output file produced by the first run leaves the file with exactly the
first run's content — the file is completely overwritten, the operation is
idempotent. -/
theorem c8_idempotent_overwrite (inPath : String) (doc : JVal) (outPath : String)
    (st0 : Option String) (t1 t2 : List Event) (f1 f2 : Option String)
    (hp : outPath ≠ "-") (hwfm : WellFormed doc)
    (h1 : t1 = (mainRun inPath (.ok doc) outPath st0.isSome none).2)
    (hf1 : f1 = fileAfter t1 st0)
    (h2 : t2 = (mainRun inPath (.ok doc) outPath f1.isSome none).2)
    (hf2 : f2 = fileAfter t2 f1) :
    f2 = f1 ∧ ∃ insts, docInstances doc = some insts
      ∧ f1 = some (tableContent insts) := by
  obtain ⟨insts, hdoc, hwf⟩ := hwfm
  have hm1 : (mainRun inPath (.ok doc) outPath st0.isSome none).2
      = Event.openOut outPath (if st0.isSome then "w" else "x") :: bodyEvents insts := by
    simpa [mainRun, hp] using congrArg Prod.snd
      (runBody_ok hdoc hwf [Event.openOut outPath (if st0.isSome then "w" else "x")])
  have hfile1 : f1 = some (tableContent insts) := by
    rw [hf1, h1, hm1, fileAfter_open_body]
  have hm2 : (mainRun inPath (.ok doc) outPath f1.isSome none).2
      = Event.openOut outPath (if f1.isSome then "w" else "x") :: bodyEvents insts := by
    simpa [mainRun, hp] using congrArg Prod.snd
      (runBody_ok hdoc hwf [Event.openOut outPath (if f1.isSome then "w" else "x")])
  have hfile2 : f2 = some (tableContent insts) := by
    rw [hf2, h2, hm2, fileAfter_open_body]
  exact ⟨hfile2.trans hfile1.symm, insts, hdoc, hfile1⟩

/-- Witness for C8 at the concrete document `doc5` over an existing output
file: the file after the second run equals the file after the first. -/
theorem c8_idempotent_witness :
    fileAfter (mainRun "instances.json" (Except.ok doc5) "instances.md"
        (fileAfter (mainRun "instances.json" (Except.ok doc5) "instances.md"
          (Option.some "old").isSome none).2 (some "old")).isSome none).2
      (fileAfter (mainRun "instances.json" (Except.ok doc5) "instances.md"
        (Option.some "old").isSome none).2 (some "old"))
    = fileAfter (mainRun "instances.json" (Except.ok doc5) "instances.md"
        (Option.some "old").isSome none).2 (some "old") :=
  (c8_idempotent_overwrite "instances.json" doc5 "instances.md" (some "old")
    _ _ _ _ (by decide) ⟨_, rfl, by decide⟩ rfl rfl rfl rfl).1

/-- C7: the picker's address-kind key set is exactly the set of keys that
occur on at least one instance minus `country`, `version` and
`description`, and both the key list and the country list are presented
sorted in lexicographic (code point) order. -/
theorem c7_picker_key_sets (insts : List PyDict) :
    (∀ k, k ∈ address_keys insts ↔
      ((k ≠ "country" ∧ k ≠ "version" ∧ k ≠ "description")
        ∧ ∃ d ∈ insts, k ∈ d.map Prod.fst))
    ∧ List.Sorted strLeP (address_keys insts)
    ∧ (∀ cs, pickerCountries insts = some cs →
        List.Sorted strLeP cs
        ∧ ∀ s, s ∈ cs ↔ ∃ d ∈ insts, dlookup d "country" = some (.str s)) := by
  refine ⟨?_, sorted_sortStr _, ?_⟩
  · intro k
    rw [address_keys, mem_sortStr, List.mem_dedup, collectKeys, List.mem_flatMap]
    constructor
    · rintro ⟨d, hd, hk⟩
      rw [List.mem_filter] at hk
      have hcond := hk.2
      simp only [Bool.not_eq_true', Bool.or_eq_false_iff, beq_eq_false_iff_ne] at hcond
      exact ⟨⟨hcond.1.1, hcond.1.2, hcond.2⟩, d, hd, hk.1⟩
    · rintro ⟨⟨hc, hv, hde⟩, d, hd, hk⟩
      refine ⟨d, hd, ?_⟩
      rw [List.mem_filter]
      refine ⟨hk, ?_⟩
      simp only [Bool.not_eq_true', Bool.or_eq_false_iff, beq_eq_false_iff_ne]
      exact ⟨⟨hc, hv⟩, hde⟩
  · intro cs hcs
    rw [pickerCountries] at hcs
    cases hsv : strCountryVals (countryVals insts) with
    | none =>
      rw [hsv] at hcs
      exact absurd hcs (by simp)
    | some l =>
      rw [hsv] at hcs
      simp only [Option.map_some', Option.some_inj] at hcs
      subst hcs
      refine ⟨sorted_sortStr _, ?_⟩
      intro s
      rw [mem_sortStr, List.mem_dedup, strCountryVals_mem hsv, countryVals,
        List.mem_filterMap]

/-- Witness for C7 at the concrete picker data: the computed sorted lists
exist and the membership equivalence holds at the key "onion". -/
theorem c7_picker_key_sets_witness :
    List.Sorted strLeP (address_keys pickerDemo)
    ∧ ("onion" ∈ address_keys pickerDemo ↔
        (("onion" ≠ "country" ∧ "onion" ≠ "version" ∧ "onion" ≠ "description")
          ∧ ∃ d ∈ pickerDemo, "onion" ∈ d.map Prod.fst))
    ∧ List.Sorted strLeP ["DE", "US"] :=
  ⟨(c7_picker_key_sets pickerDemo).2.1,
   (c7_picker_key_sets pickerDemo).1 "onion",
   ((c7_picker_key_sets pickerDemo).2.2 ["DE", "US"] rfl).1⟩

/-- C2 counterexample: with the sorted key list of the demo data, the input
"0" is `int`-parsed to 0, index −1 then silently selects the *last* key
(Python negative indexing) — not the first key, and the user is not
informed, contrary to the claim. -/
theorem c2_key_choice_counterexample :
    address_keys pickerDemo = ["i2p", "onion", "url"]
    ∧ key_choice (address_keys pickerDemo) "0" = some ("url", false)
    ∧ key_choice (address_keys pickerDemo) "0" ≠ some ("i2p", true) := by
  refine ⟨by decide, by decide, by decide⟩

/-- C2 (amended): on a parse failure, or when the parsed integer `n` has
`n − 1` outside Python's index range (`n > len` or `n ≤ −len`), the
selection defaults to the first key in sorted order and the user is
informed; `1 ≤ n ≤ len` silently selects key `n` of the menu; but
`1 − len ≤ n ≤ 0` (including the input "0") silently selects the key at
Python index `n − 1` counted from the end of the list, with no notice. -/
theorem c2_key_choice_amended (keys : List String) (line : String)
    (hk : keys ≠ []) :
    (pyInt (pyStrip line) = none →
      key_choice keys line = some (keys.getD 0 "", true))
    ∧ (∀ n : Int, pyInt (pyStrip line) = some n →
        ((keys.length : Int) < n ∨ n ≤ -(keys.length : Int)) →
        key_choice keys line = some (keys.getD 0 "", true))
    ∧ (∀ n : Int, pyInt (pyStrip line) = some n →
        1 ≤ n → n ≤ (keys.length : Int) →
        key_choice keys line = some (keys.getD (n - 1).toNat "", false))
    ∧ (∀ n : Int, pyInt (pyStrip line) = some n →
        1 - (keys.length : Int) ≤ n → n ≤ 0 →
        key_choice keys line
          = some (keys.getD (keys.length - (1 - n).toNat) "", false)) := by
  have hlen : 0 < keys.length := List.length_pos.mpr hk
  refine ⟨?_, ?_, ?_, ?_⟩
  · intro h
    rcases keys with _ | ⟨k0, ks⟩
    · exact absurd rfl hk
    · simp [key_choice, h]
  · intro n h hrange
    have hidx : pyIndex keys (n - 1) = none := by
      rcases hrange with hbig | hsmall
      · have h0 : (0 : Int) ≤ n - 1 := by omega
        rw [pyIndex, if_pos h0]
        exact List.get?_eq_none.mpr (by omega)
      · have h0 : ¬((0 : Int) ≤ n - 1) := by omega
        rw [pyIndex, if_neg h0, if_neg (by omega)]
    rcases keys with _ | ⟨k0, ks⟩
    · exact absurd rfl hk
    · simp [key_choice, h, hidx]
  · intro n h h1 h2
    have h0 : (0 : Int) ≤ n - 1 := by omega
    have hlt : (n - 1).toNat < keys.length := by omega
    have hidx : pyIndex keys (n - 1) = some (keys.getD (n - 1).toNat "") := by
      rw [pyIndex, if_pos h0]
      exact get?_eq_getD keys _ hlt
    simp [key_choice, h, hidx]
  · intro n h h1 h2
    have h0 : ¬((0 : Int) ≤ n - 1) := by omega
    have habs : (n - 1).natAbs ≤ keys.length := by omega
    have heqi : keys.length - (n - 1).natAbs = keys.length - (1 - n).toNat := by
      omega
    have hlt : keys.length - (1 - n).toNat < keys.length := by omega
    have hidx : pyIndex keys (n - 1)
        = some (keys.getD (keys.length - (1 - n).toNat) "") := by
      rw [pyIndex, if_neg h0, if_pos habs, heqi]
      exact get?_eq_getD keys _ hlt
    simp [key_choice, h, hidx]

/-- Witness for C2: an in-range input selects its key silently; an
out-of-range and a non-numeric input both default to the first key with the
notice. -/
theorem c2_key_choice_witness :
    key_choice ["i2p", "onion", "url"] " 2 " = some ("onion", false)
    ∧ key_choice ["i2p", "onion", "url"] "7" = some ("i2p", true)
    ∧ key_choice ["i2p", "onion", "url"] "abc" = some ("i2p", true) := by
  refine ⟨?_, ?_, ?_⟩
  · exact ((c2_key_choice_amended ["i2p", "onion", "url"] " 2 " (by decide)).2.2.1
      2 (by decide) (by decide) (by decide)).trans (by decide)
  · exact ((c2_key_choice_amended ["i2p", "onion", "url"] "7" (by decide)).2.1
      7 (by decide) (Or.inl (by decide))).trans (by decide)
  · exact ((c2_key_choice_amended ["i2p", "onion", "url"] "abc" (by decide)).1
      (by decide)).trans (by decide)
